import Mathlib

/-!
Verification of the myMediapipe gesture state-machine engines.

This file gives a shallow embedding of the gesture engines of the
myMediapipe repository — the fixed, moving and transition dynamic-gesture
calculators and the gesture classifier — and proves properties of their
per-frame `Process` functions.

Conventions of the embedding:

* Times (seconds, `Timestamp().Seconds()`), angles (radians) and landmark
  coordinates are modelled as rationals `ℚ` (the C++ code uses `double` /
  `float`; the claims under study are about exact comparisons and
  branching, which the rational model captures).
* Protobuf messages become Lean structures.  The proto2 notions
  `IsInitialized()` / `Clear()` on the currently-armed action are modelled
  as `Option`: `none` is a cleared ("unarmed") slot, as described by the
  spec's data model ("currently-armed ActionConfig (or none)").  Getter
  calls on cleared messages return proto defaults (`0`, `""`).
* `RET_CHECK` failures abort the frame with an error status; fallible
  `Process` functions return `Except String`.  On an `error` result no
  packet is emitted.
* A frame's outputs are collected in `EngineOut`: `messages` is the
  content of the single batched MQTT packet (`[]` when no packet is
  emitted this frame) and `flag` tells whether the boolean "unarmed"
  FLAG packet is emitted this frame.
* The C cast `(int)x` (truncation toward zero) is `truncZ`.
* Only the `x` coordinate of a `NormalizedLandmark` is ever read by the
  engines, so landmark lists are modelled as lists of x-coordinates.
-/

/-- An MQTT command message: `Mqtt_Message` proto (topic + payload). -/
structure MqttMessage where
  topic : String
  payload : String
deriving DecidableEq

/-- Proto default instance of `Mqtt_Message` (empty strings). -/
def defaultMqtt : MqttMessage := ⟨"", ""⟩

/-- The C cast `(int)q`: truncation toward zero. -/
def truncZ (q : ℚ) : ℤ := if 0 ≤ q then ⌊q⌋ else -⌊-q⌋

/-- Models `Timestamp::NextAllowedInStream()`: the smallest timestamp at
which a later packet may appear in the stream (one tick after `t`). -/
def nextAllowedInStream (t : ℤ) : ℤ := t + 1

/-- Helper `getAngle` shared by the fixed and moving calculators: selects
`angle1` of the angle sample at index `lmId` when `angleNumber == 1`,
otherwise `angle2`.  An angle sample is the pair `(angle1, angle2)`. -/
def getAngle (angleNumber : ℤ) (lmId : ℕ) (angles : List (ℚ × ℚ)) : ℚ :=
  if angleNumber = 1 then (angles.getD lmId (0, 0)).1
  else (angles.getD lmId (0, 0)).2

/-- Per-frame output of an engine: the content of the batched MQTT packet
(`[]` if no MQTT packet is emitted) and whether the "unarmed" FLAG packet
is emitted. -/
structure EngineOut where
  messages : List MqttMessage
  flag : Bool
deriving DecidableEq

/-! ## Fixed dynamic gestures calculator
(`src/calculators/gestures/fixed_dynamic_gestures_calculator.cc`) -/

/-- One `angle_limits` entry of the fixed engine's configuration. -/
structure AngleLimits where
  angle_limit_pos : ℚ
  angle_limit_neg : ℚ
deriving DecidableEq

/-- Proto default `angle_limits` entry. -/
def defaultAngleLimits : AngleLimits := ⟨0, 0⟩

/-- The `fixedActionMap` proto: one configured fixed action.  `landmark_id`
and `angle_number` are optional proto fields (`has_…` modelled by
`Option`). -/
structure fixedActionMap where
  start_action : ℤ
  landmark_id : Option ℕ
  angle_number : Option ℤ
  angle_limits : List AngleLimits
  time_between_actions : ℚ
  auto_repeat : Bool
  mqtt_message : List MqttMessage
deriving DecidableEq

/-- Options of the fixed calculator. -/
structure FixedOptions where
  fixed_time_out_s : ℚ
  fixed_actions_map : List fixedActionMap
deriving DecidableEq

/-- The `LastGesture` record of the fixed calculator. -/
structure LastGesture where
  start_action : ℤ
  time : ℚ
  notEmpty : Bool
deriving DecidableEq

/-- `clear` writes `(struct LastGesture){0}`. -/
def emptyLastGesture : LastGesture := ⟨0, 0, false⟩

/-- Mutable state of the fixed calculator: the currently-armed action
(`none` = cleared) and the last-gesture record. -/
structure FixedState where
  currentAction : Option fixedActionMap
  lastGesture : LastGesture
deriving DecidableEq

/-- Fixed-engine state at calculator construction. -/
def initFixedState : FixedState := ⟨none, emptyLastGesture⟩

/-- Per-frame input of the fixed calculator: the (last) detection's label
id, the angle samples and the frame timestamp in seconds.  (The landmark
stream is required present but never read by this calculator.) -/
structure FixedFrame where
  label_id : ℤ
  angles : List (ℚ × ℚ)
  t : ℚ
deriving DecidableEq

/-- `fixedDynamicGesturesCalculator::Open`: the only validation performed
at configuration load is `RET_CHECK_GE(fixed_actions_map_size(), 0)`. -/
def fixedOpen (opts : FixedOptions) : Except String Unit :=
  if opts.fixed_actions_map.length ≥ 0 then .ok ()
  else .error "You should at least provide one action map"

/-- The two `RET_CHECK`s run when an action with a `landmark_id` is being
armed inside `Process`: `angle_number` must be present and
`angle_limits` must have as many entries as `mqtt_message`. -/
def fixedActionOk (a : fixedActionMap) : Except String Unit :=
  if a.landmark_id.isSome then
    if a.angle_number.isNone then .error "angle_number not provided"
    else if a.angle_limits.length ≠ a.mqtt_message.length then
      .error "Command should have the same number of entries as angle_limits"
    else .ok ()
  else .ok ()

/-- The arming scan of `fixedDynamicGesturesCalculator::Process`: iterate
over all of `fixed_actions_map`; every entry whose `start_action` equals
the label overwrites `currentAction` and is then validated by the
`RET_CHECK`s of `fixedActionOk`.  There is no `break`. -/
def fixedArmScan (acts : List fixedActionMap) (label : ℤ) :
    Except String (Option fixedActionMap) :=
  acts.foldlM
    (fun cur a =>
      if a.start_action = label then do
        fixedActionOk a
        pure (some a)
      else pure cur)
    none

/-- The angle-window candidate computation of
`fixedDynamicGesturesCalculator::executeAction`: `currCommand` starts
with the sentinel topic `"empty"`; if the action has a `landmark_id`, all
windows are scanned in order and every window whose inclusive
`[angle_limit_neg, angle_limit_pos]` bounds contain the selected angle
overwrites the candidate with the payload of the same index; without a
`landmark_id` the candidate is `mqtt_message(0)`. -/
def fixedCandidate (act : fixedActionMap) (angles : List (ℚ × ℚ)) :
    MqttMessage :=
  if act.landmark_id.isSome then
    let currAngle := getAngle (act.angle_number.getD 0)
      (act.landmark_id.getD 0) angles
    (List.range act.angle_limits.length).foldl
      (fun cmd i =>
        let lim := act.angle_limits.getD i defaultAngleLimits
        if currAngle ≤ lim.angle_limit_pos ∧ currAngle ≥ lim.angle_limit_neg
        then act.mqtt_message.getD i defaultMqtt else cmd)
      ⟨"empty", ""⟩
  else act.mqtt_message.getD 0 defaultMqtt

/-- `fixedDynamicGesturesCalculator::executeAction`: computes the
candidate command; if its topic differs from the sentinel `"empty"`, sets
`lastGesture` to the fired action/time and emits the command.  In either
case `currentAction.Clear()` runs at the end, so the returned armed slot
is always `none`.  Returns (new currentAction, new lastGesture, emitted
messages). -/
def executeAction (act : fixedActionMap) (lastG : LastGesture) (t : ℚ)
    (angles : List (ℚ × ℚ)) :
    Option fixedActionMap × LastGesture × List MqttMessage :=
  let cmd := fixedCandidate act angles
  if cmd.topic ≠ "empty" then (none, ⟨act.start_action, t, true⟩, [cmd])
  else (none, lastG, [])

/-- `fixedDynamicGesturesCalculator::Process`, one frame:
1. abort-on-label-change: a non-empty `lastGesture` whose `start_action`
   differs from the label clears everything;
2. if unarmed, run the arming scan (a scan with no match clears
   `lastGesture` too);
3. if armed: run `executeAction` on the first execution
   (`!lastGesture.notEmpty`) or on an auto-repeat re-fire
   (`auto_repeat && t - lastGesture.time >= time_between_actions`);
   then the idle-timeout check
   (`t - lastGesture.time >= fixed_time_out_s`) clears everything;
4. the FLAG packet is emitted iff `currentAction` ends the frame
   cleared. -/
def fixedProcess (opts : FixedOptions) (s : FixedState) (f : FixedFrame) :
    Except String (FixedState × EngineOut) := do
  let (cur0, lastG0) :=
    if s.lastGesture.notEmpty ∧ s.lastGesture.start_action ≠ f.label_id
    then (none, emptyLastGesture) else (s.currentAction, s.lastGesture)
  let (cur1, lastG1) ← match cur0 with
    | none => do
        let c ← fixedArmScan opts.fixed_actions_map f.label_id
        match c with
        | none => pure ((none : Option fixedActionMap), emptyLastGesture)
        | some a => pure (some a, lastG0)
    | some a => pure (some a, lastG0)
  match cur1 with
  | some act =>
      let (cur2, lastG2, msgs) :=
        if ¬ lastG1.notEmpty then executeAction act lastG1 f.t f.angles
        else if act.auto_repeat ∧ f.t - lastG1.time ≥ act.time_between_actions
        then executeAction act lastG1 f.t f.angles
        else (some act, lastG1, [])
      let (cur3, lastG3) :=
        if f.t - lastG2.time ≥ opts.fixed_time_out_s
        then (none, emptyLastGesture) else (cur2, lastG2)
      pure (⟨cur3, lastG3⟩, ⟨msgs, cur3.isNone⟩)
  | none => pure (⟨none, lastG1⟩, ⟨[], true⟩)

/-- Runs the fixed calculator over a list of frames, collecting the MQTT
packet content of each frame. -/
def runFixed (opts : FixedOptions) :
    FixedState → List FixedFrame →
    Except String (FixedState × List (List MqttMessage))
  | s, [] => .ok (s, [])
  | s, f :: fs => do
      let (s', out) ← fixedProcess opts s f
      let (s'', rest) ← runFixed opts s' fs
      .ok (s'', out.messages :: rest)

/-! ## Moving dynamic gestures calculator
(`src/calculators/gestures/moving_dynamic_gestures_calculator.cc`) -/

/-- The `action_type` enum of the moving engine.  (`TRASLATION` is the
source's spelling.) -/
inductive MovingActionType where
  | TRASLATION : MovingActionType
  | ROTATION : MovingActionType
deriving DecidableEq

/-- The `movingActionMap` proto: one configured moving action.
`max_repeat` is an optional field; the proto definition is not part of
the sources under study, so following the spec's data model ("optional
max magnitude per firing") it is modelled as an optional natural
number. -/
structure movingActionMap where
  start_action : ℤ
  action_type : MovingActionType
  landmark_id : ℕ
  angle_number : ℤ
  action_threshold : ℚ
  time_between_actions : ℚ
  auto_repeat : Bool
  max_repeat : Option ℕ
  topic : String
  positive_payload : String
  negative_payload : String
deriving DecidableEq

/-- Options of the moving calculator. -/
structure MovingOptions where
  moving_time_out_s : ℚ
  moving_actions_map : List movingActionMap
deriving DecidableEq

/-- The `StartingGesture` record of the moving calculator: armed start
id, arm/last-evaluation time, baseline angle and baseline landmark
x-coordinate (`lmInfo`; only `x()` is ever read). -/
structure StartingGesture where
  start_action : ℤ
  time : ℚ
  angle : ℚ
  lmX : ℚ
deriving DecidableEq

/-- `clear` writes `(struct StartingGesture){0}`. -/
def emptyStartingGesture : StartingGesture := ⟨0, 0, 0, 0⟩

/-- Mutable state of the moving calculator. -/
structure MovingState where
  currentAction : Option movingActionMap
  startingGesture : StartingGesture
deriving DecidableEq

/-- Moving-engine state at calculator construction. -/
def initMovingState : MovingState := ⟨none, emptyStartingGesture⟩

/-- Per-frame input of the moving calculator.  `landmarks` lists the
x-coordinates of the normalized landmarks. -/
structure MovingFrame where
  label_id : ℤ
  landmarks : List ℚ
  angles : List (ℚ × ℚ)
  t : ℚ
deriving DecidableEq

/-- `setStartingGesture`: snapshots armed id, arm time, baseline angle
and baseline landmark position. -/
def setStartingGesture (act : movingActionMap) (t : ℚ)
    (landmarks : List ℚ) (angles : List (ℚ × ℚ)) : StartingGesture :=
  ⟨act.start_action, t, getAngle act.angle_number act.landmark_id angles,
    landmarks.getD act.landmark_id 0⟩

/-- The arming scan of `movingDynamicGesturesCalculator::Process`: every
matching entry overwrites both `currentAction` and `startingGesture`;
there is no `break`. -/
def movingArmScan (acts : List movingActionMap) (f : MovingFrame)
    (sg0 : StartingGesture) : Option movingActionMap × StartingGesture :=
  acts.foldl
    (fun st a =>
      if a.start_action = f.label_id
      then (some a, setStartingGesture a f.t f.landmarks f.angles)
      else st)
    (none, sg0)

/-- The `start_action()` proto getter on the armed slot: default `0` when
the message is cleared. -/
def currentStartAction (cur : Option movingActionMap) : ℤ :=
  match cur with
  | some a => a.start_action
  | none => 0

/-- The quantize-and-clamp computation of the moving engine's evaluation:
`numActions = (int)(movementDiff / action_threshold)`; clamped to its
sign when `auto_repeat` is off (`numActions / abs(numActions)`); its
magnitude clamped to `max_repeat` preserving sign when configured. -/
def movingCount (act : movingActionMap) (movementDiff : ℚ) : ℤ :=
  let n0 : ℤ := truncZ (movementDiff / act.action_threshold)
  let n1 : ℤ := if ¬ act.auto_repeat ∧ n0 ≠ 0 then n0.tdiv n0.natAbs else n0
  match act.max_repeat with
  | some m =>
      if n1 ≠ 0 ∧ (n1.natAbs : ℤ) > (m : ℤ) then
        if n1 > 0 then (m : ℤ) else -(m : ℤ)
      else n1
  | none => n1

/-- The message batch built by the emission loop
(`for(i=1; i<=abs(numActions); i++)`): `abs(numActions)` copies of the
topic with the positive payload when `numActions > 0`, the negative one
otherwise. -/
def movingBatch (act : movingActionMap) (n : ℤ) : List MqttMessage :=
  List.replicate n.natAbs
    ⟨act.topic, if n > 0 then act.positive_payload else act.negative_payload⟩

/-- The count-and-emit evaluation of the moving engine, lines 231–287 of
the source: reset the evaluation clock, compute the movement difference
`baseline − current` for the configured `action_type`, quantize and clamp
it with `movingCount`, emit `abs(numActions)` messages, and clear the
engine iff at least one message was emitted. -/
def movingEvaluate (act : movingActionMap)
    (sg : StartingGesture) (f : MovingFrame) : MovingState × EngineOut :=
  let sg2 : StartingGesture := { sg with time := f.t }
  let movementDiff : ℚ :=
    match act.action_type with
    | .TRASLATION => sg2.lmX - f.landmarks.getD act.landmark_id 0
    | .ROTATION => sg2.angle - getAngle act.angle_number act.landmark_id f.angles
  let n2 : ℤ := movingCount act movementDiff
  if n2.natAbs ≠ 0 then
    (⟨none, emptyStartingGesture⟩, ⟨movingBatch act n2, true⟩)
  else (⟨some act, sg2⟩, ⟨[], false⟩)
  -- the batch is `[]` when `n2 = 0`, so the non-emitting branch lists `[]`.

/-- `movingDynamicGesturesCalculator::Process`, one frame:
1. line 194's clearing check compares `startingGesture.start_action` with
   `currentAction.start_action()` — the armed config's own saved start id,
   not the frame's label (modelled verbatim);
2. if unarmed, run the arming scan (no match clears);
3. if armed: idle-timeout check
   (`t - startingGesture.time >= moving_time_out_s`), then, when still
   armed and `t - startingGesture.time >= time_between_actions`, the
   count-and-emit evaluation;
4. the FLAG packet is emitted iff `currentAction` ends the frame
   cleared. -/
def movingProcess (opts : MovingOptions) (s : MovingState) (f : MovingFrame) :
    MovingState × EngineOut :=
  let (cur0, sg0) :=
    if s.startingGesture.start_action ≠ currentStartAction s.currentAction
    then (none, emptyStartingGesture) else (s.currentAction, s.startingGesture)
  match cur0 with
  | none =>
      match movingArmScan opts.moving_actions_map f sg0 with
      | (none, _) => (⟨none, emptyStartingGesture⟩, ⟨[], true⟩)
      | (some a, sg1) => (⟨some a, sg1⟩, ⟨[], false⟩)
  | some act =>
      let (cur1, sg1) :=
        if f.t - sg0.time ≥ opts.moving_time_out_s
        then (none, emptyStartingGesture) else (some act, sg0)
      match cur1 with
      | some act1 =>
          if f.t - sg1.time ≥ act1.time_between_actions
          then movingEvaluate act1 sg1 f
          else (⟨some act1, sg1⟩, ⟨[], false⟩)
      | none => (⟨none, sg1⟩, ⟨[], true⟩)

/-! ## Transition dynamic gestures calculator
(`src/calculators/gestures/transition_dynamic_gestures_calculator.cc`) -/

/-- One entry of the transition calculator's `actionsMap`, as loaded by
`Open` from the `actions_map` options (fields copied verbatim; the
`notEmpty` marker of the C struct is modelled by presence in the list /
`Option` for the armed slot). -/
structure TransAction where
  startAction : ℤ
  endAction : ℤ
  topic : String
  payload : String
deriving DecidableEq

/-- Options of the transition calculator (after `Open`'s verbatim copy
into `actionsMap`). -/
structure TransitionOptions where
  time_out_s : ℚ
  actionsMap : List TransAction
deriving DecidableEq

/-- Mutable state of the transition calculator: armed pair (or `none`)
and the arming time `startingGestureTime`. -/
structure TransState where
  currentAction : Option TransAction
  startingGestureTime : ℚ
deriving DecidableEq

/-- Transition-engine state at calculator construction. -/
def initTransState : TransState := ⟨none, 0⟩

/-- Per-frame input of the transition calculator. -/
structure TransFrame where
  label_id : ℤ
  t : ℚ
deriving DecidableEq

/-- The arming scan of `transitionDynamicGesturesCalculator::Process`:
every entry whose `startAction` matches the label overwrites the armed
pair and the arming time; there is no `break`. -/
def transitionArmScan (acts : List TransAction) (label : ℤ) (t : ℚ)
    (t0 : ℚ) : Option TransAction × ℚ :=
  acts.foldl
    (fun st a => if a.startAction = label then (some a, t) else st)
    (none, t0)

/-- `transitionDynamicGesturesCalculator::Process`, one frame (with a
non-empty detection stream):
1. if unarmed, run the arming scan (no match clears);
2. if armed: the timeout check
   (`t - startingGestureTime >= time_out_s`) clears silently; otherwise
   a label equal to the armed pair's `endAction` emits that pair's
   topic/payload once and clears;
3. the FLAG packet is emitted iff `currentAction` ends the frame
   cleared. -/
def transitionProcess (opts : TransitionOptions) (s : TransState)
    (f : TransFrame) : TransState × EngineOut :=
  match s.currentAction with
  | none =>
      match transitionArmScan opts.actionsMap f.label_id f.t
        s.startingGestureTime with
      | (none, _) => (⟨none, 0⟩, ⟨[], true⟩)
      | (some a, t1) => (⟨some a, t1⟩, ⟨[], false⟩)
  | some a =>
      let (cur1, t1) :=
        if f.t - s.startingGestureTime ≥ opts.time_out_s
        then ((none : Option TransAction), (0 : ℚ))
        else (some a, s.startingGestureTime)
      match cur1 with
      | some a1 =>
          if f.label_id = a1.endAction
          then (⟨none, 0⟩, ⟨[⟨a1.topic, a1.payload⟩], true⟩)
          else (⟨some a1, t1⟩, ⟨[], false⟩)
      | none => (⟨none, t1⟩, ⟨[], true⟩)

/-! ## Gesture classifier calculator
(`src/calculators/gestures/gesture_classifier_calculator.cc`) -/

/-- The compile-time string hash `str2int` of the classifier:
`str2int(str) = !str[0] ? 5381 : (str2int(str+1) * 33) ^ str[0]` in
`unsigned int` (32-bit) arithmetic. -/
def str2int : List Char → ℕ
  | [] => 5381
  | c :: rest => ((str2int rest * 33) % 2 ^ 32) ^^^ c.toNat

/-- `str2int` applied to a string's characters. -/
def hashOfString (s : String) : ℕ := str2int s.data

/-- A boolean packet together with the timestamp it is emitted at. -/
structure BoolPacket where
  value : Bool
  ts : ℤ
deriving DecidableEq

/-- Per-frame output of the classifier: the four category latches and the
optional TBD ("release") packet. -/
structure ClassifierOut where
  latch_transition : BoolPacket
  latch_moving : BoolPacket
  latch_writing : BoolPacket
  latch_fixed : BoolPacket
  tbd : Option BoolPacket
deriving DecidableEq

/-- The text the classifier looks up for a label id: the line of the
id-indexed table when the id is a valid index, the empty string when the
`unordered_map` lookup misses. -/
def lookupText (table : List String) (label_id : ℤ) : String :=
  if 0 ≤ label_id then table.getD label_id.toNat "" else ""

/-- `setLatches(transition, moving, writing, fixed)`: all four latch
packets are emitted at the input timestamp. -/
def setLatches (a b c d : Bool) (t : ℤ) (tbd : Option BoolPacket) :
    ClassifierOut :=
  ⟨⟨a, t⟩, ⟨b, t⟩, ⟨c, t⟩, ⟨d, t⟩, tbd⟩

/-- `gestureClassifierCalculator::Process` for a frame with a detection:
look the label id up in the line-indexed table, switch on the `str2int`
hash of the text against the hashes of the four category names, emit the
matching latch pattern at the input timestamp; on the default branch emit
all-false latches plus a TBD packet timestamped
`NextAllowedInStream()`. -/
def classifierProcess (table : List String) (label_id : ℤ) (t : ℤ) :
    ClassifierOut :=
  let h := hashOfString (lookupText table label_id)
  if h = hashOfString "transition" then setLatches true false false false t none
  else if h = hashOfString "moving" then setLatches false true false false t none
  else if h = hashOfString "writing" then setLatches false false true false t none
  else if h = hashOfString "fixed" then setLatches false false false true t none
  else setLatches false false false false t
    (some ⟨true, nextAllowedInStream t⟩)

/-! ## Spec-side definitions

These definitions follow the wording of the specification (not the
source); theorems compare the source-derived functions above against
them. -/

/-- Modelled from the spec: the entry selected by a scan under the rule
"config order = precedence" with *later* matches overwriting earlier
ones: the last entry satisfying the predicate. -/
def specLastMatch {α : Type} (p : α → Prop) [DecidablePred p]
    (xs : List α) : Option α :=
  (xs.filter (fun a => decide (p a))).getLast?

/-- Modelled from the spec: the index of the angle window the fixed
engine fires, "last matching window wins": the last index whose inclusive
`[negative, positive]` bounds contain the angle. -/
def specLastWindow (act : fixedActionMap) (a : ℚ) : Option ℕ :=
  ((List.range act.angle_limits.length).filter
    (fun i =>
      decide ((act.angle_limits.getD i defaultAngleLimits).angle_limit_neg ≤ a
        ∧ a ≤ (act.angle_limits.getD i defaultAngleLimits).angle_limit_pos))).getLast?

/-- The angle `executeAction` evaluates for an action with an angle
selector. -/
def selectedAngle (act : fixedActionMap) (angles : List (ℚ × ℚ)) : ℚ :=
  getAngle (act.angle_number.getD 0) (act.landmark_id.getD 0) angles

/-- Modelled from the spec: "no window matches" — the selected angle lies
inside none of the configured `[negative, positive]` windows. -/
def specNoWindowMatches (act : fixedActionMap) (angles : List (ℚ × ℚ)) :
    Prop :=
  ∀ lim ∈ act.angle_limits,
    ¬ (lim.angle_limit_neg ≤ selectedAngle act angles ∧
       selectedAngle act angles ≤ lim.angle_limit_pos)

/-- Modelled from the spec: the moving engine's command count —
`count = trunc(delta / threshold)`; clamped to its sign (−1, 0, or +1)
when auto-repeat is disabled; `|count|` clamped to the configured
max-repeat preserving sign. -/
def specMovingCount (act : movingActionMap) (delta : ℚ) : ℤ :=
  let raw := truncZ (delta / act.action_threshold)
  let c1 := if act.auto_repeat then raw else raw.sign
  match act.max_repeat with
  | some m => if (c1.natAbs : ℤ) > (m : ℤ) then (m : ℤ) * c1.sign else c1
  | none => c1

/-- Modelled from the spec: the moving engine's movement delta —
`baseline − current` for the configured coordinate: the x-position for a
translation, the selected angle slot for a rotation. -/
def specMovingDelta (act : movingActionMap) (sg : StartingGesture)
    (f : MovingFrame) : ℚ :=
  match act.action_type with
  | .TRASLATION => sg.lmX - f.landmarks.getD act.landmark_id 0
  | .ROTATION => sg.angle - getAngle act.angle_number act.landmark_id f.angles

/-! ## Concrete fixtures for witnesses and counterexamples -/

/-- Two configured fixed actions sharing start id `1` but with different
payloads. -/
def cfgA : fixedActionMap := ⟨1, none, none, [], 3, false, [⟨"cmd", "A"⟩]⟩

/-- Second entry with the same start id as `cfgA`. -/
def cfgB : fixedActionMap := ⟨1, none, none, [], 3, false, [⟨"cmd", "B"⟩]⟩

/-- The angle-window fixed action of the spec's example: windows
`[(−1.4, −0.8) → DOWN, (0.35, 0.85) → UP]` (stored as
`(angle_limit_pos, angle_limit_neg)` pairs), start id `3`, selector
`angle1` of landmark `0`, auto-repeat every `1.0 s`. -/
def angleAct : fixedActionMap :=
  ⟨3, some 0, some 1, [⟨-4/5, -7/5⟩, ⟨17/20, 7/20⟩], 1, true,
    [⟨"cmd", "DOWN"⟩, ⟨"cmd", "UP"⟩]⟩

/-- Fixed options holding only `angleAct`, with a `10 s` idle timeout. -/
def angleOpts : FixedOptions := ⟨10, [angleAct]⟩

/-- A plain (no angle selector) fixed action with auto-repeat at `1.0 s`,
start id `1`. -/
def repAct : fixedActionMap := ⟨1, none, none, [], 1, true, [⟨"cmd", "P"⟩]⟩

/-- Fixed options holding only `repAct`, with a `10 s` idle timeout. -/
def repOpts : FixedOptions := ⟨10, [repAct]⟩

/-- Six frames with label `1` at `t = 0, 0.5, 1, 1.5, 2, 2.5`: a gesture
held for three seconds. -/
def heldFrames : List FixedFrame :=
  [⟨1, [], 0⟩, ⟨1, [], 1/2⟩, ⟨1, [], 1⟩, ⟨1, [], 3/2⟩, ⟨1, [], 2⟩,
    ⟨1, [], 5/2⟩]

/-- A misconfigured fixed action: an angle selector with two angle
windows but a single payload entry. -/
def badAct : fixedActionMap :=
  ⟨3, some 0, some 1, [⟨9/5, 6/5⟩, ⟨-4/5, -7/5⟩], 3/2, false,
    [⟨"cmd", "ONLY"⟩]⟩

/-- Fixed options holding only the misconfigured `badAct`. -/
def badOpts : FixedOptions := ⟨3/2, [badAct]⟩

/-- The rotation moving action of the source's example config: start id
`6`, threshold `0.1`, sample interval `0.5 s`, auto-repeat, max-repeat
`5`. -/
def movAct : movingActionMap :=
  ⟨6, .ROTATION, 0, 1, 1/10, 1/2, true, some 5, "mt", "UP", "DOWN"⟩

/-- Moving options holding only `movAct`, `1.5 s` idle timeout. -/
def movOpts : MovingOptions := ⟨3/2, [movAct]⟩

/-- Moving state armed on `movAct` at `t = 0` with baseline angle
`0.35`. -/
def movArmed : MovingState := ⟨some movAct, ⟨6, 0, 7/20, 0⟩⟩

/-- The transition pair of the spec's example: start id `0`, end id `2`. -/
def trAct : TransAction := ⟨0, 2, "cmd", "KEY_POWER"⟩

/-- Transition options holding only `trAct`, `1.5 s` timeout. -/
def trOpts : TransitionOptions := ⟨3/2, [trAct]⟩

/-- Transition state armed on `trAct` since `t = 0`. -/
def trArmed : TransState := ⟨some trAct, 0⟩

/-- The MQTT packet content of a fixed-engine frame result (`[]` for an
aborted frame, which emits nothing). -/
def fixedOutMessages (r : Except String (FixedState × EngineOut)) :
    List MqttMessage :=
  match r with
  | .ok (_, o) => o.messages
  | .error _ => []

/-! ## Helper lemmas -/

/-- Binding an `Except.ok` value applies the continuation. -/
theorem except_ok_bind {ε α β : Type} (x : α) (f : α → Except ε β) :
    (Except.ok x >>= f : Except ε β) = f x := rfl

/-- Binding a pure `Except` value applies the continuation. -/
theorem except_pure_bind {ε α β : Type} (x : α) (f : α → Except ε β) :
    (pure x >>= f : Except ε β) = f x := rfl

/-- `pure` on `Except` is `Except.ok`. -/
theorem except_pure_eq_ok {ε α : Type} (x : α) :
    (pure x : Except ε α) = Except.ok x := rfl

/-- Extracting the output component from an `Except.ok` equation on
pairs. -/
theorem ok_pair_out {α β : Type} {x2 : α} {y2 : β} {x : α} {y : β}
    (h : (Except.ok (x, y) : Except String (α × β)) = .ok (x2, y2)) :
    y2 = y := by
  injection h with h1
  injection h1 with h2 h3
  exact h3.symm

/-- Binding an `Except.error` short-circuits. -/
theorem except_error_bind {ε α β : Type} (e : ε) (f : α → Except ε β) :
    (Except.error e >>= f : Except ε β) = Except.error e := rfl

/-- `Option.elim` over the last element of a non-empty list ignores the
default value. -/
theorem elim_getLast?_cons {α β : Type} (b : α) (l : List α) (x y : β)
    (g : α → β) :
    ((b :: l).getLast?).elim x g = ((b :: l).getLast?).elim y g := by
  cases h2 : (b :: l).getLast? with
  | none => simp at h2
  | some z => rfl

/-- A fold that overwrites its state at every element satisfying `p`
computes `g` of the last such element (or keeps the initial state). -/
theorem foldl_ite_last {α β : Type} (p : α → Prop) [DecidablePred p]
    (g : α → β) (xs : List α) (st0 : β) :
    xs.foldl (fun st a => if p a then g a else st) st0
      = (specLastMatch p xs).elim st0 g := by
  induction xs generalizing st0 with
  | nil => rfl
  | cons a xs ih =>
    rw [List.foldl_cons]
    by_cases h : p a
    · rw [if_pos h, ih (g a)]
      unfold specLastMatch
      rw [List.filter_cons_of_pos (by simpa using h)]
      cases hxs : xs.filter (fun x => decide (p x)) with
      | nil => rfl
      | cons b l =>
          rw [List.getLast?_cons_cons]
          exact elim_getLast?_cons b l (g a) st0 g
    · rw [if_neg h, ih st0]
      unfold specLastMatch
      rw [List.filter_cons_of_neg (by simpa using h)]

/-- The fixed arming scan, from an arbitrary accumulator: when every
matching entry passes the arm-time checks, it returns the last matching
entry (or the accumulator). -/
theorem fixedArmScan_go (acts : List fixedActionMap) (label : ℤ)
    (init : Option fixedActionMap)
    (hok : ∀ a ∈ acts, a.start_action = label → fixedActionOk a = .ok ()) :
    (acts.foldlM
      (fun cur a =>
        if a.start_action = label then do
          fixedActionOk a
          pure (some a)
        else pure cur)
      init : Except String (Option fixedActionMap))
      = .ok ((specLastMatch (fun a => a.start_action = label) acts).elim
          init some) := by
  induction acts generalizing init with
  | nil => rfl
  | cons a xs ih =>
    rw [List.foldlM_cons]
    by_cases h : a.start_action = label
    · rw [if_pos h, hok a (List.mem_cons_self a xs) h, except_ok_bind,
        except_pure_bind,
        ih (some a) (fun b hb hb2 => hok b (List.mem_cons_of_mem a hb) hb2)]
      unfold specLastMatch
      rw [List.filter_cons_of_pos (by simpa using h)]
      cases hxs : xs.filter (fun x => decide (x.start_action = label)) with
      | nil => rfl
      | cons b l =>
          rw [List.getLast?_cons_cons]
          exact congrArg Except.ok
            (elim_getLast?_cons b l (some a) init some)
    · rw [if_neg h, except_pure_bind,
        ih init (fun b hb hb2 => hok b (List.mem_cons_of_mem a hb) hb2)]
      unfold specLastMatch
      rw [List.filter_cons_of_neg (by simpa using h)]

/-- The fixed arming scan returns the last matching configured entry when
every matching entry passes the arm-time checks. -/
theorem fixedArmScan_eq (acts : List fixedActionMap) (label : ℤ)
    (hok : ∀ a ∈ acts, a.start_action = label → fixedActionOk a = .ok ()) :
    fixedArmScan acts label
      = .ok (specLastMatch (fun a => a.start_action = label) acts) := by
  rw [fixedArmScan, fixedArmScan_go acts label none hok]
  cases specLastMatch (fun a => a.start_action = label) acts <;> rfl

/-- The fixed arming scan, from an arbitrary accumulator: if some
matching entry fails the arm-time checks, the scan aborts the frame with
an error. -/
theorem fixedArmScan_error_go (acts : List fixedActionMap) (label : ℤ)
    (init : Option fixedActionMap)
    (hbad : ∃ a ∈ acts, a.start_action = label ∧ fixedActionOk a ≠ .ok ()) :
    ∃ e, (acts.foldlM
      (fun cur a =>
        if a.start_action = label then do
          fixedActionOk a
          pure (some a)
        else pure cur)
      init : Except String (Option fixedActionMap)) = .error e := by
  induction acts generalizing init with
  | nil => simp at hbad
  | cons a xs ih =>
    rw [List.foldlM_cons]
    by_cases h : a.start_action = label
    · rw [if_pos h]
      cases hfa : fixedActionOk a with
      | error e =>
          exact ⟨e, by rw [except_error_bind, except_error_bind]⟩
      | ok u =>
          cases u
          rw [except_ok_bind, except_pure_bind]
          obtain ⟨b, hb, hb1, hb2⟩ := hbad
          rcases List.mem_cons.mp hb with rfl | hbxs
          · exact absurd hfa hb2
          · exact ih (some a) ⟨b, hbxs, hb1, hb2⟩
    · rw [if_neg h, except_pure_bind]
      obtain ⟨b, hb, hb1, hb2⟩ := hbad
      rcases List.mem_cons.mp hb with rfl | hbxs
      · exact absurd hb1 h
      · exact ih init ⟨b, hbxs, hb1, hb2⟩

deriving instance DecidableEq for Except

/-- A `specLastMatch` over a list with no matching element is `none`. -/
theorem specLastMatch_none {α : Type} (p : α → Prop) [DecidablePred p]
    (xs : List α) (h : ∀ a ∈ xs, ¬ p a) : specLastMatch p xs = none := by
  unfold specLastMatch
  rw [List.filter_eq_nil_iff.mpr (fun a ha => by simpa using h a ha)]
  rfl

/-! ## C1 -/

/-- C1 (corrected).  For every engine (fixed, moving, transition) in the
Idle state, the arming scan iterates the whole configured action list
without a `break`, so when several entries match the current label the
engine arms on the *last* matching entry in configuration order (later
matches overwrite earlier ones); when no entry matches, the engine stays
unarmed for that frame (and emits the unarmed FLAG). -/
theorem C1_arming_scan_precedence :
    (∀ (acts : List fixedActionMap) (label : ℤ),
      (∀ a ∈ acts, a.start_action = label → fixedActionOk a = .ok ()) →
      fixedArmScan acts label
        = .ok (specLastMatch (fun a => a.start_action = label) acts))
    ∧ (∀ (acts : List movingActionMap) (f : MovingFrame)
        (sg0 : StartingGesture),
      movingArmScan acts f sg0
        = (specLastMatch (fun a => a.start_action = f.label_id) acts).elim
            (none, sg0)
            (fun a => (some a, setStartingGesture a f.t f.landmarks f.angles)))
    ∧ (∀ (acts : List TransAction) (label : ℤ) (t t0 : ℚ),
      transitionArmScan acts label t t0
        = (specLastMatch (fun a => a.startAction = label) acts).elim
            (none, t0) (fun a => (some a, t)))
    ∧ (∀ (opts : FixedOptions) (s : FixedState) (f : FixedFrame),
      s.currentAction = none → s.lastGesture.notEmpty = false →
      (∀ a ∈ opts.fixed_actions_map, a.start_action ≠ f.label_id) →
      fixedProcess opts s f = .ok (⟨none, emptyLastGesture⟩, ⟨[], true⟩))
    ∧ (∀ (opts : MovingOptions) (s : MovingState) (f : MovingFrame),
      s.currentAction = none → s.startingGesture.start_action = 0 →
      (∀ a ∈ opts.moving_actions_map, a.start_action ≠ f.label_id) →
      movingProcess opts s f = (⟨none, emptyStartingGesture⟩, ⟨[], true⟩))
    ∧ (∀ (opts : TransitionOptions) (s : TransState) (f : TransFrame),
      s.currentAction = none →
      (∀ a ∈ opts.actionsMap, a.startAction ≠ f.label_id) →
      transitionProcess opts s f = (⟨none, 0⟩, ⟨[], true⟩)) := by
  refine ⟨fixedArmScan_eq, ?_, ?_, ?_, ?_, ?_⟩
  · intro acts f sg0
    rw [movingArmScan]
    exact foldl_ite_last _ _ acts (none, sg0)
  · intro acts label t t0
    rw [transitionArmScan]
    exact foldl_ite_last _ _ acts (none, t0)
  · intro opts s f hs hlg hno
    have hscan : fixedArmScan opts.fixed_actions_map f.label_id = .ok none := by
      rw [fixedArmScan_eq _ _ (fun a ha hm => absurd hm (hno a ha)),
        specLastMatch_none _ _ hno]
    simp only [fixedProcess, hs, hlg, Bool.false_eq_true, false_and,
      if_false, hscan, except_ok_bind, except_pure_bind]
    rfl
  · intro opts s f hs hsg hno
    have hscan : movingArmScan opts.moving_actions_map f s.startingGesture
        = (none, s.startingGesture) := by
      rw [movingArmScan, foldl_ite_last _ _ _ _,
        specLastMatch_none _ _ (fun a ha => hno a ha)]
      rfl
    simp only [movingProcess, hs, currentStartAction, hsg, ne_eq,
      not_true_eq_false, if_false, hscan]
  · intro opts s f hs hno
    have hscan : transitionArmScan opts.actionsMap f.label_id f.t
        s.startingGestureTime = (none, s.startingGestureTime) := by
      rw [transitionArmScan, foldl_ite_last _ _ _ _,
        specLastMatch_none _ _ (fun a ha => hno a ha)]
      rfl
    simp only [transitionProcess, hs, hscan]

/-- C1 counterexample: two configured fixed actions share start id `1`;
from Idle, a frame with label `1` arms the *second* entry, not the first
matching one. -/
theorem C1_counterexample :
    fixedArmScan [cfgA, cfgB] 1 = .ok (some cfgB)
    ∧ decide (cfgB = cfgA) = false := by
  exact ⟨rfl, by decide⟩

/-- C1 witness: the fixed scan theorem applied to the two-entry
configuration sharing start id `1`. -/
theorem C1_witness :
    fixedArmScan [cfgA, cfgB] 1
      = .ok (specLastMatch (fun a => a.start_action = (1 : ℤ)) [cfgA, cfgB]) :=
  C1_arming_scan_precedence.1 [cfgA, cfgB] 1 (by decide)

/-- `n / abs(n)` in C integer division is the sign of `n` (for `n ≠ 0`). -/
theorem tdiv_natAbs_eq_sign (n : ℤ) (h : n ≠ 0) :
    n.tdiv (n.natAbs : ℤ) = n.sign := by
  rcases lt_trichotomy n 0 with h1 | h1 | h1
  · rw [Int.sign_eq_neg_one_of_neg h1,
      show (n.natAbs : ℤ) = -n by omega, Int.tdiv_neg, Int.tdiv_self h]
  · omega
  · rw [Int.sign_eq_one_of_pos h1,
      show (n.natAbs : ℤ) = n by omega, Int.tdiv_self h]

/-- When the selected angle lies in none of the configured windows,
`executeAction` emits nothing, leaves `lastGesture` (hence the last-fire
time) untouched, and still clears the armed slot. -/
theorem executeAction_no_match (act : fixedActionMap) (lastG : LastGesture)
    (t : ℚ) (angles : List (ℚ × ℚ)) (hlm : act.landmark_id.isSome)
    (hnw : specNoWindowMatches act angles) :
    executeAction act lastG t angles = (none, lastG, []) := by
  have hcand : fixedCandidate act angles = ⟨"empty", ""⟩ := by
    rw [fixedCandidate, if_pos hlm]
    have h0 := foldl_ite_last
      (fun i => getAngle (act.angle_number.getD 0) (act.landmark_id.getD 0)
          angles
        ≤ (act.angle_limits.getD i defaultAngleLimits).angle_limit_pos ∧
        getAngle (act.angle_number.getD 0) (act.landmark_id.getD 0) angles
        ≥ (act.angle_limits.getD i defaultAngleLimits).angle_limit_neg)
      (fun i => act.mqtt_message.getD i defaultMqtt)
      (List.range act.angle_limits.length) ⟨"empty", ""⟩
    rw [h0, specLastMatch_none]
    · rfl
    · intro i hi
      have hlen : i < act.angle_limits.length := List.mem_range.mp hi
      have hmem : act.angle_limits.getD i defaultAngleLimits
          ∈ act.angle_limits := by
        rw [List.getD_eq_getElem act.angle_limits defaultAngleLimits hlen]
        exact List.getElem_mem hlen
      intro hcontra
      exact hnw _ hmem ⟨hcontra.2, hcontra.1⟩
  rw [executeAction, hcand]
  simp

/-! ## C2 -/

/-- C2 (code bug).  The moving engine's frame-top clearing check (line
194) compares `startingGesture.start_action` with the armed config's own
`start_action()` instead of the frame's label, so it can never fire while
armed: a frame whose label differs from the armed start id leaves the
armed engine completely untouched (here stated for frames that also hit
neither the timeout nor the evaluation tick, where the claimed behavior
would be the only possible change). -/
theorem C2_no_abort_on_label_change :
    ∀ (opts : MovingOptions) (s : MovingState) (f : MovingFrame)
      (act : movingActionMap),
    s.currentAction = some act →
    s.startingGesture.start_action = act.start_action →
    f.t - s.startingGesture.time < opts.moving_time_out_s →
    f.t - s.startingGesture.time < act.time_between_actions →
    movingProcess opts s f = (s, ⟨[], false⟩) := by
  intro opts s f act hs hinv hto hdue
  have h1 : ¬ (s.startingGesture.start_action
      ≠ currentStartAction (some act)) := by
    simpa [currentStartAction] using hinv
  rw [movingProcess]
  simp only [hs, if_neg h1]
  simp only [if_neg (not_le.mpr hto), if_neg (not_le.mpr hdue)]
  rw [← hs]

/-- C2 witness: armed on start id `6`, a frame with label `4` arrives and
the engine stays armed on `6` instead of being cleared. -/
theorem C2_witness :
    movingProcess movOpts movArmed ⟨4, [0], [(0, 0)], 1/10⟩
      = (movArmed, ⟨[], false⟩)
    ∧ movArmed.currentAction = some movAct := by
  refine ⟨C2_no_abort_on_label_change movOpts movArmed _ movAct rfl rfl ?_ ?_,
    rfl⟩
  · show (1/10 : ℚ) - 0 < movOpts.moving_time_out_s
    norm_num [movOpts]
  · show (1/10 : ℚ) - 0 < movAct.time_between_actions
    norm_num [movAct]

/-! ## C3 -/

/-- C3 (corrected).  On a firing evaluation of an armed angle-window
action in which the selected angle lies inside none of the configured
windows, no command is emitted and the last-fire time does not advance
(`lastGesture` is returned unchanged) — but, because `executeAction`
clears the armed slot unconditionally, the engine does *not* remain
armed: the slot ends the frame cleared and the unarmed FLAG is emitted
that same frame. -/
theorem C3_no_match_clears_slot :
    ∀ (opts : FixedOptions) (s : FixedState) (f : FixedFrame)
      (act : fixedActionMap),
    s.currentAction = some act →
    s.lastGesture.notEmpty = true →
    s.lastGesture.start_action = f.label_id →
    act.landmark_id.isSome →
    specNoWindowMatches act f.angles →
    act.auto_repeat = true →
    f.t - s.lastGesture.time ≥ act.time_between_actions →
    f.t - s.lastGesture.time < opts.fixed_time_out_s →
    fixedProcess opts s f = .ok (⟨none, s.lastGesture⟩, ⟨[], true⟩) := by
  intro opts s f act hs hne hstart hlm hnw hauto hdue hto
  have hmatch : ¬ (s.lastGesture.start_action ≠ f.label_id) :=
    fun h => h hstart
  rw [fixedProcess]
  simp only [hne, eq_self_iff_true, true_and, if_neg hmatch, hs,
    not_true, if_false, hauto, if_pos hdue,
    executeAction_no_match act s.lastGesture f.t f.angles hlm hnw,
    if_neg (not_le.mpr hto), except_pure_bind, Option.isNone_none]
  rfl

/-- C3 counterexample: the spec's example action armed on label `3`;
angle `2.0` matches no window, yet the frame ends with the armed slot
cleared and the unarmed FLAG emitted — the claim's "remains armed, no
unarmed flag" is false on the code. -/
theorem C3_counterexample :
    fixedProcess angleOpts ⟨some angleAct, ⟨3, 0, true⟩⟩ ⟨3, [(2, 0)], 3/2⟩
      = .ok (⟨none, ⟨3, 0, true⟩⟩, ⟨[], true⟩) := by
  norm_num [fixedProcess, angleOpts, angleAct, executeAction, fixedCandidate,
    getAngle, List.range_succ, except_pure_bind]
  rfl

/-- C3 witness: the no-match theorem applied to the spec's example
configuration at angle `2.0` and frame time `1`. -/
theorem C3_witness :
    fixedProcess angleOpts ⟨some angleAct, ⟨3, 0, true⟩⟩ ⟨3, [(2, 0)], 1⟩
      = .ok (⟨none, ⟨3, 0, true⟩⟩, ⟨[], true⟩) := by
  refine C3_no_match_clears_slot angleOpts _ _ angleAct rfl rfl rfl rfl ?_
    rfl ?_ ?_
  · intro lim hmem
    simp only [angleAct, List.mem_cons, List.not_mem_nil, or_false] at hmem
    rcases hmem with rfl | rfl <;>
      norm_num [selectedAngle, getAngle, angleAct]
  · show (1 : ℚ) - 0 ≥ angleAct.time_between_actions
    norm_num [angleAct]
  · show (1 : ℚ) - 0 < angleOpts.fixed_time_out_s
    norm_num [angleOpts, angleAct]

/-! ## C4 -/

/-- The source's quantize-and-clamp chain equals the spec's description
of it (sign clamp via `Int.sign`, magnitude clamp preserving sign). -/
theorem movingCount_eq_spec (act : movingActionMap) (d : ℚ) :
    movingCount act d = specMovingCount act d := by
  rw [movingCount, specMovingCount]
  have hn1 : (if ¬ act.auto_repeat ∧ truncZ (d / act.action_threshold) ≠ 0
      then (truncZ (d / act.action_threshold)).tdiv
        (truncZ (d / act.action_threshold)).natAbs
      else truncZ (d / act.action_threshold))
      = (if act.auto_repeat then truncZ (d / act.action_threshold)
         else (truncZ (d / act.action_threshold)).sign) := by
    by_cases hauto : act.auto_repeat = true
    · rw [if_neg (by simp [hauto]), if_pos hauto]
    · by_cases h0 : truncZ (d / act.action_threshold) = 0
      · rw [if_neg (by simp [h0]), if_neg hauto, h0, Int.sign_zero]
      · rw [if_pos ⟨by simpa using hauto, h0⟩, if_neg hauto,
          tdiv_natAbs_eq_sign _ h0]
  rw [hn1]
  set c1 := if act.auto_repeat then truncZ (d / act.action_threshold)
    else (truncZ (d / act.action_threshold)).sign with hc1
  cases hmr : act.max_repeat with
  | none => rfl
  | some m =>
      dsimp only
      by_cases h0 : c1 = 0
      · rw [if_neg (by tauto), if_neg (by rw [h0]; simp)]
      · by_cases hgt : (c1.natAbs : ℤ) > (m : ℤ)
        · rw [if_pos ⟨h0, hgt⟩, if_pos hgt]
          rcases lt_trichotomy c1 0 with hc | hc | hc
          · rw [if_neg (by omega), Int.sign_eq_neg_one_of_neg hc]
            ring
          · exact absurd hc h0
          · rw [if_pos hc, Int.sign_eq_one_of_pos hc]
            ring
        · rw [if_neg (by tauto), if_neg hgt]

/-- Characterization of one moving-engine evaluation in terms of the
spec's delta and count: zero count keeps the arming (only the evaluation
clock advances) and emits nothing; a non-zero count emits the batch and
clears the engine. -/
theorem movingEvaluate_spec (act : movingActionMap) (sg : StartingGesture)
    (f : MovingFrame) :
    movingEvaluate act sg f
      = (if specMovingCount act (specMovingDelta act sg f) = 0
         then (⟨some act, { sg with time := f.t }⟩, ⟨[], false⟩)
         else (⟨none, emptyStartingGesture⟩,
           ⟨movingBatch act (specMovingCount act (specMovingDelta act sg f)),
             true⟩)) := by
  simp only [movingEvaluate, movingCount_eq_spec]
  have hd : (match act.action_type with
      | MovingActionType.TRASLATION =>
          sg.lmX - f.landmarks.getD act.landmark_id 0
      | MovingActionType.ROTATION =>
          sg.angle - getAngle act.angle_number act.landmark_id f.angles)
      = specMovingDelta act sg f := by
    rw [specMovingDelta]
  rw [hd]
  by_cases hz : specMovingCount act (specMovingDelta act sg f) = 0
  · rw [if_neg (by simp [hz]), if_pos hz]
  · rw [if_pos (by simpa [Int.natAbs_ne_zero] using hz), if_neg hz]

/-- C4 (confirmed).  On a moving-engine evaluation tick (armed, not
timed out, sample interval elapsed), the emitted batch is exactly
`|count|` copies of the command — positive payload for `count > 0`,
negative for `count < 0`, nothing for `count = 0` — where `count` is the
spec's truncated, sign-clamped and magnitude-clamped quotient; and the
engine is cleared to Idle iff at least one message was emitted. -/
theorem C4_moving_quantized_emission :
    ∀ (opts : MovingOptions) (s : MovingState) (f : MovingFrame)
      (act : movingActionMap),
    s.currentAction = some act →
    s.startingGesture.start_action = act.start_action →
    f.t - s.startingGesture.time < opts.moving_time_out_s →
    f.t - s.startingGesture.time ≥ act.time_between_actions →
    (movingProcess opts s f).2.messages
        = movingBatch act
            (specMovingCount act (specMovingDelta act s.startingGesture f))
    ∧ ((movingProcess opts s f).1.currentAction = none
        ↔ specMovingCount act (specMovingDelta act s.startingGesture f) ≠ 0)
    ∧ ((movingProcess opts s f).2.messages ≠ []
        ↔ specMovingCount act (specMovingDelta act s.startingGesture f) ≠ 0)
    := by
  intro opts s f act hs hinv hto hdue
  have h1 : ¬ (s.startingGesture.start_action
      ≠ currentStartAction (some act)) := by
    simpa [currentStartAction] using hinv
  have hproc : movingProcess opts s f = movingEvaluate act s.startingGesture f := by
    rw [movingProcess]
    simp only [hs, if_neg h1]
    simp only [if_neg (not_le.mpr hto), if_pos hdue]
  rw [hproc, movingEvaluate_spec]
  by_cases hz : specMovingCount act (specMovingDelta act s.startingGesture f) = 0
  · rw [if_pos hz]
    refine ⟨by rw [hz]; simp [movingBatch], by simp [hz], by simp [hz]⟩
  · rw [if_neg hz]
    refine ⟨rfl, by simpa using hz, ?_⟩
    have : (specMovingCount act (specMovingDelta act s.startingGesture f)).natAbs
        ≠ 0 := Int.natAbs_ne_zero.mpr hz
    simp only [movingBatch]
    constructor
    · intro _
      exact hz
    · intro _ hrep
      exact this (by simpa using congrArg List.length hrep)

/-- C4 witness: the spec's quantization example on the armed rotation
action — baseline angle `0.35`, current angle `0`, threshold `0.1` —
yields count `3` and a batch of three positive-payload messages, and the
engine clears. -/
theorem C4_witness :
    specMovingCount movAct
        (specMovingDelta movAct ⟨6, 0, 7/20, 0⟩ ⟨6, [0], [(0, 0)], 1/2⟩) = 3
    ∧ (movingProcess movOpts movArmed ⟨6, [0], [(0, 0)], 1/2⟩).2.messages
        = [⟨"mt", "UP"⟩, ⟨"mt", "UP"⟩, ⟨"mt", "UP"⟩]
    ∧ (movingProcess movOpts movArmed ⟨6, [0], [(0, 0)], 1/2⟩).1.currentAction
        = none := by
  have hcount : specMovingCount movAct
      (specMovingDelta movAct ⟨6, 0, 7/20, 0⟩ ⟨6, [0], [(0, 0)], 1/2⟩) = 3 := by
    norm_num [specMovingCount, specMovingDelta, movAct, getAngle, truncZ]
  have h := C4_moving_quantized_emission movOpts movArmed
    ⟨6, [0], [(0, 0)], 1/2⟩ movAct rfl rfl
    (by norm_num [movOpts, movArmed]) (by norm_num [movAct, movArmed])
  refine ⟨hcount, ?_, ?_⟩
  · rw [h.1]
    have : movArmed.startingGesture = ⟨6, 0, 7/20, 0⟩ := rfl
    rw [this, hcount]
    rfl
  · rw [h.2.1]
    have : movArmed.startingGesture = ⟨6, 0, 7/20, 0⟩ := rfl
    rw [this, hcount]
    decide

/-! ## C5 -/

/-- C5 (confirmed).  For an armed transition pair since `t0` with timeout
`T`: a frame with `t − t0 ≥ T` clears to Idle with no command (even when
the label equals the end id); otherwise a frame whose label equals the
end id emits exactly that pair's topic/payload once and clears; any other
label leaves the armed state unchanged (and emits no FLAG). -/
theorem C5_transition_timeout_and_fire :
    ∀ (opts : TransitionOptions) (s : TransState) (f : TransFrame)
      (a : TransAction),
    s.currentAction = some a →
    ((f.t - s.startingGestureTime ≥ opts.time_out_s →
      transitionProcess opts s f = (⟨none, 0⟩, ⟨[], true⟩))
    ∧ (f.t - s.startingGestureTime < opts.time_out_s →
        f.label_id = a.endAction →
      transitionProcess opts s f
        = (⟨none, 0⟩, ⟨[⟨a.topic, a.payload⟩], true⟩))
    ∧ (f.t - s.startingGestureTime < opts.time_out_s →
        f.label_id ≠ a.endAction →
      transitionProcess opts s f = (s, ⟨[], false⟩))) := by
  intro opts s f a hs
  refine ⟨?_, ?_, ?_⟩
  · intro hto
    rw [transitionProcess]
    simp only [hs, if_pos hto]
  · intro hto hend
    rw [transitionProcess]
    simp only [hs, if_neg (not_le.mpr hto), if_pos hend]
  · intro hto hend
    rw [transitionProcess]
    simp only [hs, if_neg (not_le.mpr hto), if_neg hend]
    rw [← hs]

/-- C5 witness: armed on the pair (0 → 2) at `t0 = 0` with a `1.5 s`
timeout: end id `2` at `t = 1.6` yields no command and a silent clear;
end id `2` at `t = 1.4` yields exactly one command. -/
theorem C5_witness :
    transitionProcess trOpts trArmed ⟨2, 8/5⟩ = (⟨none, 0⟩, ⟨[], true⟩)
    ∧ transitionProcess trOpts trArmed ⟨2, 7/5⟩
        = (⟨none, 0⟩, ⟨[⟨"cmd", "KEY_POWER"⟩], true⟩) := by
  constructor
  · exact (C5_transition_timeout_and_fire trOpts trArmed ⟨2, 8/5⟩ trAct rfl).1
      (by norm_num [trOpts, trArmed])
  · exact (C5_transition_timeout_and_fire trOpts trArmed ⟨2, 7/5⟩ trAct
      rfl).2.1 (by norm_num [trOpts, trArmed]) rfl

/-! ## C6 -/

/-- C6 (corrected).  `Open` performs no angle-window/payload-count
validation at configuration load — it succeeds on every configuration.
The mismatch `RET_CHECK` instead fires at arming time inside `Process`,
on a frame whose label matches the misconfigured entry, aborting that
frame with an error status (so no command and no FLAG packet are emitted
on that frame). -/
theorem C6_validation_at_arm_time :
    (∀ opts : FixedOptions, fixedOpen opts = .ok ())
    ∧ (∀ (opts : FixedOptions) (s : FixedState) (f : FixedFrame),
      s.currentAction = none → s.lastGesture.notEmpty = false →
      (∃ a ∈ opts.fixed_actions_map, a.start_action = f.label_id ∧
        fixedActionOk a ≠ .ok ()) →
      ∃ e, fixedProcess opts s f = .error e) := by
  constructor
  · intro opts
    rw [fixedOpen, if_pos (Nat.zero_le _)]
  · intro opts s f hs hlg hbad
    obtain ⟨e, he⟩ := fixedArmScan_error_go opts.fixed_actions_map
      f.label_id none hbad
    refine ⟨e, ?_⟩
    rw [fixedProcess]
    simp only [hlg, Bool.false_eq_true, false_and, if_false, hs]
    rw [show fixedArmScan opts.fixed_actions_map f.label_id = .error e from he,
      except_error_bind]

/-- C6 counterexample: a configuration whose only action has two angle
windows but one payload passes `Open` untouched (no error at
configuration load) and only errors on the first frame whose label
matches it; a frame with a non-matching label processes normally. -/
theorem C6_counterexample :
    fixedOpen badOpts = .ok ()
    ∧ fixedProcess badOpts initFixedState ⟨3, [(0, 0)], 0⟩
        = .error "Command should have the same number of entries as angle_limits"
    ∧ (fixedProcess badOpts initFixedState ⟨7, [(0, 0)], 0⟩).isOk = true := by
  refine ⟨rfl, rfl, rfl⟩

/-- C6 witness: the arm-time-error theorem applied to the misconfigured
two-windows-one-payload action. -/
theorem C6_witness :
    (fixedProcess badOpts initFixedState ⟨3, [(0, 0)], 0⟩).isOk = false := by
  obtain ⟨e, he⟩ := C6_validation_at_arm_time.2 badOpts initFixedState
    ⟨3, [(0, 0)], 0⟩ rfl rfl
    ⟨badAct, List.mem_cons_self badAct [], rfl, by decide⟩
  rw [he]
  rfl

/-! ## C7 -/

/-- The angle-window candidate of `executeAction` is the payload indexed
by the *last* window (in configuration order) containing the selected
angle, or the `"empty"` sentinel when no window matches. -/
theorem fixedCandidate_eq (act : fixedActionMap) (angles : List (ℚ × ℚ))
    (hlm : act.landmark_id.isSome = true) :
    fixedCandidate act angles
      = (specLastWindow act (selectedAngle act angles)).elim ⟨"empty", ""⟩
          (fun i => act.mqtt_message.getD i defaultMqtt) := by
  rw [fixedCandidate, if_pos hlm]
  rw [foldl_ite_last
    (fun i => getAngle (act.angle_number.getD 0) (act.landmark_id.getD 0)
        angles
      ≤ (act.angle_limits.getD i defaultAngleLimits).angle_limit_pos ∧
      getAngle (act.angle_number.getD 0) (act.landmark_id.getD 0) angles
      ≥ (act.angle_limits.getD i defaultAngleLimits).angle_limit_neg)
    (fun i => act.mqtt_message.getD i defaultMqtt)
    (List.range act.angle_limits.length) ⟨"empty", ""⟩]
  have hsw : specLastMatch
      (fun i => getAngle (act.angle_number.getD 0) (act.landmark_id.getD 0)
          angles
        ≤ (act.angle_limits.getD i defaultAngleLimits).angle_limit_pos ∧
        getAngle (act.angle_number.getD 0) (act.landmark_id.getD 0) angles
        ≥ (act.angle_limits.getD i defaultAngleLimits).angle_limit_neg)
      (List.range act.angle_limits.length)
      = specLastWindow act (selectedAngle act angles) := by
    unfold specLastMatch specLastWindow
    congr 1
    apply List.filter_congr
    intro i _
    apply decide_eq_decide.mpr
    unfold selectedAngle
    exact ⟨fun h => ⟨h.2, h.1⟩, fun h => ⟨h.2, h.1⟩⟩
  rw [hsw]

/-- C7 (confirmed).  On a firing evaluation with angle windows, the
emitted payload (when one is emitted) is the one of the last window in
configuration order whose inclusive bounds contain the angle — later
matching entries overwrite the candidate within one evaluation; on the
spec's example windows, angle `0.5` emits "UP" and angle `−1.0` emits
"DOWN". -/
theorem C7_last_window_wins :
    (∀ (act : fixedActionMap) (angles : List (ℚ × ℚ)),
      act.landmark_id.isSome = true →
      fixedCandidate act angles
        = (specLastWindow act (selectedAngle act angles)).elim ⟨"empty", ""⟩
            (fun i => act.mqtt_message.getD i defaultMqtt))
    ∧ (∀ (act : fixedActionMap) (lastG : LastGesture) (t : ℚ)
        (angles : List (ℚ × ℚ)) (cmd : MqttMessage),
      act.landmark_id.isSome = true →
      (executeAction act lastG t angles).2.2 = [cmd] →
      (specLastWindow act (selectedAngle act angles)).map
          (fun i => act.mqtt_message.getD i defaultMqtt) = some cmd)
    ∧ (executeAction angleAct ⟨3, 0, true⟩ 1 [(1/2, 0)]).2.2
        = [⟨"cmd", "UP"⟩]
    ∧ (executeAction angleAct ⟨3, 0, true⟩ 1 [(-1, 0)]).2.2
        = [⟨"cmd", "DOWN"⟩] := by
  refine ⟨fixedCandidate_eq, ?_, ?_, ?_⟩
  · intro act lastG t angles cmd hlm hemit
    rw [executeAction] at hemit
    by_cases ht : (fixedCandidate act angles).topic ≠ "empty"
    · rw [if_pos ht] at hemit
      simp only [List.cons.injEq, and_true] at hemit
      rw [fixedCandidate_eq act angles hlm] at ht hemit
      cases hsw : specLastWindow act (selectedAngle act angles) with
      | none =>
          rw [hsw] at ht
          exact absurd rfl ht
      | some i =>
          rw [hsw] at hemit
          exact congrArg some hemit
    · rw [if_neg ht] at hemit
      exact absurd hemit (by simp)
  · norm_num [executeAction, fixedCandidate, angleAct, getAngle,
      List.range_succ]
    decide
  · norm_num [executeAction, fixedCandidate, angleAct, getAngle,
      List.range_succ]
    decide

/-- C7 witness: the candidate characterization applied to the spec's
example action at angle `0.5`. -/
theorem C7_witness :
    fixedCandidate angleAct [(1/2, 0)]
      = (specLastWindow angleAct
          (selectedAngle angleAct [(1/2, 0)])).elim ⟨"empty", ""⟩
          (fun i => angleAct.mqtt_message.getD i defaultMqtt) :=
  C7_last_window_wins.1 angleAct [(1/2, 0)] rfl

/-! ## C8 -/

/-- A frame hitting a re-armed, already-fired arming (cleared slot,
non-empty `lastGesture` on the still-matching label, scan selecting
`act`) reduces to the auto-repeat gate, `executeAction`, and the timeout
check. -/
theorem fixedProcess_refired_eq (opts : FixedOptions) (s : FixedState)
    (f : FixedFrame) (act : fixedActionMap) (t0 : ℚ)
    (hs : s.currentAction = none)
    (hlg : s.lastGesture = ⟨f.label_id, t0, true⟩)
    (hvalid : ∀ a ∈ opts.fixed_actions_map, a.start_action = f.label_id →
      fixedActionOk a = .ok ())
    (hmatch : specLastMatch (fun a => a.start_action = f.label_id)
      opts.fixed_actions_map = some act) :
    fixedProcess opts s f
      = (do
          let (cur2, lastG2, msgs) :=
            if act.auto_repeat ∧ f.t - t0 ≥ act.time_between_actions
            then executeAction act ⟨f.label_id, t0, true⟩ f.t f.angles
            else (some act, (⟨f.label_id, t0, true⟩ : LastGesture), [])
          let (cur3, lastG3) :=
            if f.t - lastG2.time ≥ opts.fixed_time_out_s
            then (none, emptyLastGesture) else (cur2, lastG2)
          pure (⟨cur3, lastG3⟩, ⟨msgs, cur3.isNone⟩)) := by
  have hscan : fixedArmScan opts.fixed_actions_map f.label_id
      = .ok (some act) := by
    rw [fixedArmScan_eq _ _ hvalid, hmatch]
  rw [fixedProcess]
  simp only [hlg, hs, ne_eq, eq_self_iff_true, not_true, true_and,
    and_false, false_and, and_true, if_false]
  rw [hscan, except_ok_bind]
  dsimp only
  rw [except_pure_bind]
  dsimp only
  rw [if_neg (show ¬ ¬ ((true : Bool) = true) by simp)]

/-- C8 (corrected).  For an arming that has already fired once
(`lastGesture` non-empty on the still-matching label; the armed slot was
cleared by the previous firing and is re-armed by the scan), a further
command is fired on a frame *only if* auto-repeat is enabled and the
elapsed time since the last firing is `≥` the configured interval
(inclusive lower bound) — for every configured action, angle-gated or
not.  For an action without an angle precondition (and whose configured
topic is not the reserved sentinel `"empty"`) the condition is also
sufficient, and exactly the action’s payload fires.  A plain gesture
held for `3.0 s` with `auto_repeat = true` and
`time_between_actions = 1.0 s` yields exactly three commands, at
`t = 0, 1, 2`.  (An angle-window arming can meet the auto-repeat
condition and still emit nothing when no window matches — see the
counterexample.) -/
theorem C8_fixed_auto_repeat :
    (∀ (opts : FixedOptions) (s : FixedState) (f : FixedFrame)
        (act : fixedActionMap) (t0 : ℚ),
      s.currentAction = none →
      s.lastGesture = ⟨f.label_id, t0, true⟩ →
      (∀ a ∈ opts.fixed_actions_map, a.start_action = f.label_id →
        fixedActionOk a = .ok ()) →
      specLastMatch (fun a => a.start_action = f.label_id)
          opts.fixed_actions_map = some act →
      fixedOutMessages (fixedProcess opts s f) ≠ [] →
      (act.auto_repeat = true ∧ f.t - t0 ≥ act.time_between_actions))
    ∧ (∀ (opts : FixedOptions) (s : FixedState) (f : FixedFrame)
        (act : fixedActionMap) (t0 : ℚ),
      s.currentAction = none →
      s.lastGesture = ⟨f.label_id, t0, true⟩ →
      (∀ a ∈ opts.fixed_actions_map, a.start_action = f.label_id →
        fixedActionOk a = .ok ()) →
      specLastMatch (fun a => a.start_action = f.label_id)
          opts.fixed_actions_map = some act →
      act.landmark_id = none →
      (act.mqtt_message.getD 0 defaultMqtt).topic ≠ "empty" →
      ((fixedOutMessages (fixedProcess opts s f) ≠ [] ↔
          (act.auto_repeat = true ∧ f.t - t0 ≥ act.time_between_actions))
        ∧ (act.auto_repeat = true → f.t - t0 ≥ act.time_between_actions →
          fixedOutMessages (fixedProcess opts s f)
            = [act.mqtt_message.getD 0 defaultMqtt])))
    ∧ runFixed repOpts initFixedState heldFrames
        = .ok (⟨some repAct, ⟨1, 2, true⟩⟩,
            [[⟨"cmd", "P"⟩], [], [⟨"cmd", "P"⟩], [], [⟨"cmd", "P"⟩], []])
    := by
  refine ⟨?_, ?_, ?_⟩
  · intro opts s f act t0 hs hlg hvalid hmatch hne
    rw [fixedProcess_refired_eq opts s f act t0 hs hlg hvalid hmatch] at hne
    by_cases hfire : act.auto_repeat = true ∧
        f.t - t0 ≥ act.time_between_actions
    · exact hfire
    · rw [if_neg hfire] at hne
      exact absurd rfl hne
  · intro opts s f act t0 hs hlg hvalid hmatch hnoangle htopic
    have hexec : executeAction act ⟨f.label_id, t0, true⟩ f.t f.angles
        = (none, ⟨act.start_action, f.t, true⟩,
            [act.mqtt_message.getD 0 defaultMqtt]) := by
      rw [executeAction]
      have hcand : fixedCandidate act f.angles
          = act.mqtt_message.getD 0 defaultMqtt := by
        rw [fixedCandidate, if_neg (by simp [hnoangle])]
      rw [hcand, if_pos htopic]
    have hbase := fixedProcess_refired_eq opts s f act t0 hs hlg hvalid
      hmatch
    by_cases hfire : act.auto_repeat = true ∧
        f.t - t0 ≥ act.time_between_actions
    · rw [hbase, if_pos hfire, hexec]
      refine ⟨by simp [fixedOutMessages, except_pure_eq_ok, hfire],
        fun _ _ => by simp [fixedOutMessages, except_pure_eq_ok]⟩
    · rw [hbase, if_neg hfire]
      constructor
      · simp only [fixedOutMessages, except_pure_eq_ok]
        simpa using hfire
      · intro h1 h2
        exact absurd ⟨h1, h2⟩ hfire
  · norm_num [runFixed, fixedProcess, fixedArmScan, fixedActionOk,
      executeAction, fixedCandidate, repOpts, repAct, heldFrames,
      initFixedState, emptyLastGesture, except_ok_bind, except_pure_bind,
      List.foldlM, show ("cmd" : String) ≠ "empty" from by decide]

/-- C8 counterexample: an already-fired arming of the spec’s angle-window
action (auto-repeat enabled, `1.0 s` interval) meets the auto-repeat
condition at `t = 1.25` (elapsed `1.25 ≥ 1`), yet the frame emits no
command because angle `2.0` lies in no configured window — so the
claimed “if and only if” fails on armings with an angle precondition. -/
theorem C8_counterexample :
    angleAct.auto_repeat = true
    ∧ (5/4 : ℚ) - 0 ≥ angleAct.time_between_actions
    ∧ fixedProcess angleOpts ⟨none, ⟨3, 0, true⟩⟩ ⟨3, [(2, 0)], 5/4⟩
        = .ok (⟨none, ⟨3, 0, true⟩⟩, ⟨[], true⟩) := by
  refine ⟨rfl, by norm_num [angleAct], ?_⟩
  norm_num [fixedProcess, fixedArmScan, fixedActionOk, angleOpts, angleAct,
    executeAction, fixedCandidate, getAngle, List.range_succ,
    except_ok_bind, except_pure_bind, List.foldlM]
  rfl

/-- C8 witness: the sufficiency direction applied to the single-action
no-angle auto-repeat configuration one second after the last firing. -/
theorem C8_witness :
    fixedOutMessages (fixedProcess repOpts ⟨none, ⟨1, 0, true⟩⟩ ⟨1, [], 1⟩)
        = [⟨"cmd", "P"⟩] := by
  have h := C8_fixed_auto_repeat.2.1 repOpts ⟨none, ⟨1, 0, true⟩⟩
    ⟨1, [], 1⟩ repAct 0 rfl rfl (by decide) rfl rfl (by decide)
  have h2 := h.2 rfl (by norm_num [repAct])
  simpa [repAct] using h2

/-! ## C9 -/

/-- C9 (corrected).  The classifier routes by comparing the 32-bit
`str2int` hash of the looked-up table text (empty string when the id is
absent) with the hashes of the four category names — not by string
equality.  Every frame with a detection emits exactly one boolean per
category at the input timestamp, the one whose name's hash equals the
text's hash being true and the others false; iff the hash matches none of
the four, all four are false and one TBD release packet is emitted at the
next allowed timestamp instead of the current one. -/
theorem C9_classifier_hash_routing :
    ∀ (table : List String) (label_id t : ℤ),
      classifierProcess table label_id t
        = ⟨⟨decide (hashOfString (lookupText table label_id)
              = hashOfString "transition"), t⟩,
           ⟨decide (hashOfString (lookupText table label_id)
              = hashOfString "moving"), t⟩,
           ⟨decide (hashOfString (lookupText table label_id)
              = hashOfString "writing"), t⟩,
           ⟨decide (hashOfString (lookupText table label_id)
              = hashOfString "fixed"), t⟩,
           if hashOfString (lookupText table label_id)
                = hashOfString "transition"
              ∨ hashOfString (lookupText table label_id)
                = hashOfString "moving"
              ∨ hashOfString (lookupText table label_id)
                = hashOfString "writing"
              ∨ hashOfString (lookupText table label_id)
                = hashOfString "fixed"
           then none else some ⟨true, nextAllowedInStream t⟩⟩ := by
  intro table label_id t
  rw [classifierProcess]
  by_cases h1 : hashOfString (lookupText table label_id)
      = hashOfString "transition"
  · have d2 : hashOfString (lookupText table label_id)
        ≠ hashOfString "moving" := by rw [h1]; decide
    have d3 : hashOfString (lookupText table label_id)
        ≠ hashOfString "writing" := by rw [h1]; decide
    have d4 : hashOfString (lookupText table label_id)
        ≠ hashOfString "fixed" := by rw [h1]; decide
    rw [if_pos h1]
    simp [setLatches, h1, d2, d3, d4]
    decide
  · rw [if_neg h1]
    by_cases h2 : hashOfString (lookupText table label_id)
        = hashOfString "moving"
    · have d3 : hashOfString (lookupText table label_id)
          ≠ hashOfString "writing" := by rw [h2]; decide
      have d4 : hashOfString (lookupText table label_id)
          ≠ hashOfString "fixed" := by rw [h2]; decide
      rw [if_pos h2]
      simp [setLatches, h1, h2, d3, d4]
      decide
    · rw [if_neg h2]
      by_cases h3 : hashOfString (lookupText table label_id)
          = hashOfString "writing"
      · have d4 : hashOfString (lookupText table label_id)
            ≠ hashOfString "fixed" := by rw [h3]; decide
        rw [if_pos h3]
        simp [setLatches, h1, h2, h3, d4]
        decide
      · rw [if_neg h3]
        by_cases h4 : hashOfString (lookupText table label_id)
            = hashOfString "fixed"
        · rw [if_pos h4]
          simp [setLatches, h1, h2, h3, h4]
          decide
        · rw [if_neg h4]
          simp [setLatches, h1, h2, h3, h4]

/-- C9 counterexample: the table text `"GhYdd"` is none of the four
category names, yet its `str2int` hash collides with that of `"fixed"`,
so the classifier raises the fixed latch (and emits no TBD release)
instead of the claimed all-false-plus-release behavior of a
case-sensitive exact match. -/
theorem C9_counterexample :
    (decide (("GhYdd" : String) = "transition") = false
      ∧ decide (("GhYdd" : String) = "moving") = false
      ∧ decide (("GhYdd" : String) = "writing") = false
      ∧ decide (("GhYdd" : String) = "fixed") = false)
    ∧ classifierProcess ["GhYdd"] 0 0
        = ⟨⟨false, 0⟩, ⟨false, 0⟩, ⟨false, 0⟩, ⟨true, 0⟩, none⟩ := by
  decide

/-! ## C10 -/

/-- `executeAction` ends with an unconditional `currentAction.Clear()`:
the returned armed slot is `none` on every path (fire or no-fire). -/
theorem executeAction_clears (act : fixedActionMap) (lastG : LastGesture)
    (t : ℚ) (angles : List (ℚ × ℚ)) :
    (executeAction act lastG t angles).1 = none := by
  rw [executeAction]
  split <;> rfl

/-- In the armed branch of `fixedProcess`, a frame that emits a message
ends with the armed slot cleared, so its FLAG output is `true`. -/
theorem fixed_armed_flag_aux (opts : FixedOptions) (a : fixedActionMap)
    (lg : LastGesture) (f : FixedFrame) (s2 : FixedState) (out : EngineOut)
    (hp : ((do
        let (cur2, lastG2, msgs) :=
          if ¬ lg.notEmpty then executeAction a lg f.t f.angles
          else if a.auto_repeat ∧ f.t - lg.time ≥ a.time_between_actions
          then executeAction a lg f.t f.angles
          else (some a, lg, [])
        let (cur3, lastG3) :=
          if f.t - lastG2.time ≥ opts.fixed_time_out_s
          then (none, emptyLastGesture) else (cur2, lastG2)
        pure (⟨cur3, lastG3⟩, ⟨msgs, cur3.isNone⟩)) :
          Except String (FixedState × EngineOut)) = .ok (s2, out))
    (hm : out.messages ≠ []) : out.flag = true := by
  have hfire : ∀ (lg0 : LastGesture),
      (do
        let (cur2, lastG2, msgs) := executeAction a lg0 f.t f.angles
        let (cur3, lastG3) :=
          if f.t - lastG2.time ≥ opts.fixed_time_out_s
          then (none, emptyLastGesture) else (cur2, lastG2)
        (pure (⟨cur3, lastG3⟩, ⟨msgs, cur3.isNone⟩) :
          Except String (FixedState × EngineOut))) = .ok (s2, out) →
      out.flag = true := by
    intro lg0 hp0
    rcases hexec : executeAction a lg0 f.t f.angles with ⟨c2, lg2, ms2⟩
    have hc2 : c2 = none := by
      have h0 := executeAction_clears a lg0 f.t f.angles
      rw [hexec] at h0
      exact h0
    subst hc2
    rw [hexec] at hp0
    dsimp only at hp0
    by_cases ht2 : f.t - lg2.time ≥ opts.fixed_time_out_s
    · rw [if_pos ht2, except_pure_eq_ok] at hp0
      rw [ok_pair_out hp0]
      rfl
    · rw [if_neg ht2, except_pure_eq_ok] at hp0
      rw [ok_pair_out hp0]
      rfl
  by_cases hg1 : ¬ lg.notEmpty = true
  · rw [if_pos hg1] at hp
    exact hfire lg hp
  · rw [if_neg hg1] at hp
    by_cases hg2 : a.auto_repeat = true ∧ f.t - lg.time ≥ a.time_between_actions
    · rw [if_pos hg2] at hp
      exact hfire lg hp
    · rw [if_neg hg2] at hp
      dsimp only at hp
      by_cases ht2 : f.t - lg.time ≥ opts.fixed_time_out_s
      · rw [if_pos ht2, except_pure_eq_ok] at hp
        rw [ok_pair_out hp] at hm
        exact absurd rfl hm
      · rw [if_neg ht2, except_pure_eq_ok] at hp
        rw [ok_pair_out hp] at hm
        exact absurd rfl hm

/-- C10 (confirmed, implicit).  On every frame in which the fixed engine
fires, the stored armed action is cleared by the firing routine itself,
so the unarmed FLAG is emitted on that same frame even though the gesture
persists; continued tracking works because the next frame's scan re-arms
from the still-matching label (shown here on a non-firing follow-up
frame: the engine ends it armed again with no FLAG). -/
theorem C10_fire_clears_then_rearms :
    (∀ (act : fixedActionMap) (lastG : LastGesture) (t : ℚ)
        (angles : List (ℚ × ℚ)),
      (executeAction act lastG t angles).1 = none)
    ∧ (∀ (opts : FixedOptions) (s : FixedState) (f : FixedFrame)
        (s2 : FixedState) (out : EngineOut),
      fixedProcess opts s f = .ok (s2, out) →
      out.messages ≠ [] → out.flag = true)
    ∧ (∀ (opts : FixedOptions) (s : FixedState) (f : FixedFrame)
        (act : fixedActionMap) (t0 : ℚ),
      s.currentAction = none →
      s.lastGesture = ⟨f.label_id, t0, true⟩ →
      (∀ a ∈ opts.fixed_actions_map, a.start_action = f.label_id →
        fixedActionOk a = .ok ()) →
      specLastMatch (fun a => a.start_action = f.label_id)
          opts.fixed_actions_map = some act →
      ¬ (act.auto_repeat = true ∧ f.t - t0 ≥ act.time_between_actions) →
      f.t - t0 < opts.fixed_time_out_s →
      fixedProcess opts s f = .ok (⟨some act, s.lastGesture⟩, ⟨[], false⟩))
    := by
  refine ⟨executeAction_clears, ?_, ?_⟩
  · intro opts s f s2 out hp hm
    rw [fixedProcess] at hp
    by_cases hab : s.lastGesture.notEmpty = true ∧
        s.lastGesture.start_action ≠ f.label_id
    · rw [if_pos hab] at hp
      dsimp only at hp
      cases hscan : fixedArmScan opts.fixed_actions_map f.label_id with
      | error e =>
          rw [hscan] at hp
          simp only [except_error_bind] at hp
          exact absurd hp (by simp)
      | ok c =>
          rw [hscan] at hp
          simp only [except_ok_bind] at hp
          cases c with
          | none =>
              simp only [except_pure_bind] at hp
              rw [except_pure_eq_ok] at hp
              rw [ok_pair_out hp] at hm
              exact absurd rfl hm
          | some a =>
              simp only [except_pure_bind] at hp
              exact fixed_armed_flag_aux opts a emptyLastGesture f s2 out
                hp hm
    · rw [if_neg hab] at hp
      dsimp only at hp
      cases hcur : s.currentAction with
      | none =>
          rw [hcur] at hp
          dsimp only at hp
          cases hscan : fixedArmScan opts.fixed_actions_map f.label_id with
          | error e =>
              rw [hscan] at hp
              simp only [except_error_bind] at hp
              exact absurd hp (by simp)
          | ok c =>
              rw [hscan] at hp
              simp only [except_ok_bind] at hp
              cases c with
              | none =>
                  simp only [except_pure_bind] at hp
                  rw [except_pure_eq_ok] at hp
                  rw [ok_pair_out hp] at hm
                  exact absurd rfl hm
              | some a =>
                  simp only [except_pure_bind] at hp
                  exact fixed_armed_flag_aux opts a s.lastGesture f s2 out
                    hp hm
      | some a =>
          rw [hcur] at hp
          simp only [except_pure_bind] at hp
          exact fixed_armed_flag_aux opts a s.lastGesture f s2 out hp hm
  · intro opts s f act t0 hs hlg hvalid hmatch hnofire hto
    have hscan : fixedArmScan opts.fixed_actions_map f.label_id
        = .ok (some act) := by
      rw [fixedArmScan_eq _ _ hvalid, hmatch]
    rw [fixedProcess]
    simp only [hlg, hs, ne_eq, eq_self_iff_true, not_true, true_and,
      and_false, false_and, and_true, if_false]
    rw [hscan, except_ok_bind]
    dsimp only
    rw [except_pure_bind]
    dsimp only
    rw [if_neg (show ¬ ¬ ((true : Bool) = true) by simp)]
    rw [if_neg hnofire]
    dsimp only
    rw [if_neg (not_le.mpr hto), except_pure_eq_ok]
    rfl

/-- C10 witness: one non-firing follow-up frame after a firing — the
engine re-arms from the still-matching label and tracks silently (armed
slot set again, no FLAG, no command). -/
theorem C10_witness :
    fixedProcess repOpts ⟨none, ⟨1, 0, true⟩⟩ ⟨1, [], 1/2⟩
      = .ok (⟨some repAct, ⟨1, 0, true⟩⟩, ⟨[], false⟩) := by
  refine C10_fire_clears_then_rearms.2.2 repOpts _ _ repAct 0 rfl rfl
    (by decide) rfl ?_ ?_
  · norm_num [repAct]
  · show (1/2 : ℚ) - 0 < repOpts.fixed_time_out_s
    norm_num [repOpts]
